import Mathlib

/-!
Shallow embedding of `pull_osm_data.py` (pelias-deploy): an OSM extract
downloader / merger / uploader pipeline.  Effectful Python code is embedded as
pure functions over explicit oracles: the filesystem is a pair of functions
(existence, mtime), HTTP failure is an oracle on URLs, the external osmium and
boto3 libraries are oracles telling which calls raise.  Exceptions are
`Except` values; a caught exception is an `Except.error` consumed by the
matching handler.  Time is modelled in seconds (`Int`), matching Python
`timedelta` whole-day granularity via floor division by 86400.
-/

set_option autoImplicit false

/-- Python exception classes that the script can raise or catch. -/
inductive PyExc where
  | indexError
  | requestException
  | osError
  | libError
  deriving DecidableEq, Repr

/-- Python `str.split(sep)` for a one-character separator: splits on every
occurrence, keeping empty parts (`""` splits to `[""]`). -/
def splitChar (sep : Char) : List Char → List (List Char)
  | [] => [[]]
  | c :: cs =>
    match splitChar sep cs with
    | [] => [[c]]
    | h :: t => if c = sep then [] :: h :: t else (c :: h) :: t

/-- Python `loc.split("/")`, lifted to `String`. -/
def pySplitSlash (s : String) : List String :=
  (splitChar '/' s.data).map String.mk

/-- Number of occurrences of a character in a string. -/
def countChar (c : Char) (s : String) : Nat :=
  s.data.count c

/-- The `paths[1]` access of `download_files` (line 155 of the source):
`loc.split("/")` followed by indexing position 1.  `none` models the
`IndexError` raised when the index is out of bounds. -/
def locationCountry (loc : String) : Option String :=
  (pySplitSlash loc).get? 1

/-- Filesystem state seen by the script: existence and modification time
(seconds) per path. -/
structure FS where
  ex : String → Bool
  mtime : String → Int

/-- Effect of a successful download: the target file now exists with the
current time as its mtime. -/
def writeFile (fs : FS) (p : String) (t : Int) : FS :=
  { ex := fun q => if q = p then true else fs.ex q,
    mtime := fun q => if q = p then t else fs.mtime q }

/-- `OSMDownloaderMerger.needs_download`: true when the path does not exist,
otherwise true iff `(now - mtime).days >= 7`, where `.days` is Python floor
division of the age in seconds by 86400. -/
def needs_download (ex : String → Bool) (mtime : String → Int) (now : Int)
    (filepath : String) : Bool :=
  if ex filepath = false then true
  else decide (7 ≤ (now - mtime filepath).fdiv 86400)

/-- `OSMDownloaderMerger.download_files`: for each location, split on `"/"`
and take index 1 (raising `IndexError` when out of bounds, which propagates),
build the local filename and remote URL, and when `needs_download` holds
attempt the download; a failed request (`requests.exceptions.RequestException`)
hits `continue`, skipping the append of the filename; a successful request
writes the file.  Paths of locations that were fresh enough or downloaded
successfully are appended, in order. -/
def download_files (httpFails : String → Bool) (now : Int)
    (base_url download_dir : String) :
    FS → List String → Except PyExc (List String)
  | _, [] => Except.ok []
  | fs, loc :: rest =>
    match locationCountry loc with
    | none => Except.error PyExc.indexError
    | some country =>
      let filename := download_dir ++ "/" ++ country ++ "-latest.osm.pbf"
      let filepath := loc ++ "-latest.osm.pbf"
      if needs_download fs.ex fs.mtime now filename then
        if httpFails (base_url ++ "/" ++ filepath) then
          download_files httpFails now base_url download_dir fs rest
        else
          (download_files httpFails now base_url download_dir
              (writeFile fs filename now) rest).map (fun l => filename :: l)
      else
        (download_files httpFails now base_url download_dir fs rest).map
          (fun l => filename :: l)

/-- Python whitespace as used by `str.strip()`. -/
def pyIsSpace (c : Char) : Bool :=
  c = ' ' || c = '\t' || c = '\n' || c = '\x0d' || c = '\x0b' || c = '\x0c'

/-- Python `line.strip()`: remove leading and trailing whitespace. -/
def pyStrip (cs : List Char) : List Char :=
  ((cs.dropWhile pyIsSpace).reverse.dropWhile pyIsSpace).reverse

/-- Split a character list at the first `'='`, as in
`line.split("=", maxsplit=1)`; `none` when the line holds no `'='`
(the `"=" not in line` guard). -/
def splitFirstEq : List Char → Option (List Char × List Char)
  | [] => none
  | c :: cs =>
    if c = '=' then some ([], cs)
    else
      match splitFirstEq cs with
      | none => none
      | some (k, v) => some (c :: k, v)

/-- One iteration of the line loop of `load_env_file`: strip, then skip blank
lines, `#` comments and lines with no `'='`; otherwise split on the first
`'='` into key and value. -/
def parseLine (line : String) : Option (String × String) :=
  let l := pyStrip line.data
  if l.isEmpty then none
  else if l.head? = some '#' then none
  else
    match splitFirstEq l with
    | none => none
    | some (k, v) => some (String.mk k, String.mk v)

/-- Environment / dict lookup in an association list: value of the first
binding of the key. -/
def envLookup (k : String) : List (String × String) → Option String
  | [] => none
  | (k1, v) :: rest => if k1 = k then some v else envLookup k rest

/-- Python `dict.setdefault(key, value)`: insert only when the key is absent
(inserted at the end, preserving insertion order). -/
def dictSetdefault (d : List (String × String)) (k v : String) :
    List (String × String) :=
  if (envLookup k d).isSome then d else d ++ [(k, v)]

/-- One line step of the `dotenv_vars` loop: skip unusable lines, otherwise
`dict.setdefault` the parsed key/value pair. -/
def dotenvStep (d : List (String × String)) (line : String) :
    List (String × String) :=
  match parseLine line with
  | none => d
  | some (k, v) => dictSetdefault d k v

/-- The `dotenv_vars` dict built by the line loop of `load_env_file`:
parse each line and apply `dict.setdefault`, so the first well-formed
occurrence of a key wins. -/
def parseDotenv (lines : List String) : List (String × String) :=
  lines.foldl dotenvStep []

/-- Python `os.environ[k] = v` (one step of `os.environ.update(...)`):
replace the binding in place when present (keys of a dict are unique), else
append. -/
def envUpdate : List (String × String) → String → String →
    List (String × String)
  | [], k, v => [(k, v)]
  | (k1, v1) :: rest, k, v =>
    if k1 = k then (k, v) :: rest else (k1, v1) :: envUpdate rest k v

/-- Python `os.environ.setdefault(k, v)`: set only when absent. -/
def envSetdefault (env : List (String × String)) (k v : String) :
    List (String × String) :=
  if (envLookup k env).isSome then env else env ++ [(k, v)]

/-- The application step of `load_env_file`: `os.environ.update(dotenv_vars)`
in override mode, else `os.environ.setdefault` per entry. -/
def applyEnvFile (override : Bool) (lines : List String)
    (env : List (String × String)) : List (String × String) :=
  let vars := parseDotenv lines
  if override then vars.foldl (fun e kv => envUpdate e kv.1 kv.2) env
  else vars.foldl (fun e kv => envSetdefault e kv.1 kv.2) env

/-- Result of a function that may terminate the process via `sys.exit`. -/
inductive LoadResult where
  | exited (code : Nat)
  | ok (env : List (String × String))
  deriving Repr

/-- Modelled from Python semantics: `sys.exit()` called with no argument
terminates the process with exit status 0. -/
def sysExitNoArg : Nat := 0

/-- `load_env_file`: prefer the given candidate file, fall back to `".env"`,
and `sys.exit()` when neither is a file; then parse and apply the chosen
file's lines to the process environment. -/
def load_env_file (isFile : String → Bool) (readLines : String → List String)
    (input_env_file : String) (override : Bool)
    (env : List (String × String)) : LoadResult :=
  if isFile input_env_file then
    LoadResult.ok (applyEnvFile override (readLines input_env_file) env)
  else if isFile ".env" then
    LoadResult.ok (applyEnvFile override (readLines ".env") env)
  else
    LoadResult.exited sysExitNoArg

/-- Outcome of `Path.unlink()` on a given path, as seen by
`clean_old_merge`: success, or one of the exception classes its handlers
distinguish. -/
inductive UnlinkResult where
  | ok
  | notFound
  | permissionDenied
  | otherError
  deriving DecidableEq, Repr

/-- `OSMDownloaderMerger.clean_old_merge`: `file_path.unlink()` wrapped in
handlers for `FileNotFoundError`, `PermissionError` and `Exception`; every
outcome is caught and logged, so the function always returns normally. -/
def clean_old_merge (unlink : String → UnlinkResult) (file_input : String) :
    Except PyExc Unit :=
  match unlink file_input with
  | UnlinkResult.ok => Except.ok ()
  | UnlinkResult.notFound => Except.ok ()
  | UnlinkResult.permissionDenied => Except.ok ()
  | UnlinkResult.otherError => Except.ok ()

/-- Oracle for the osmium merge library: which calls inside the `try` block of
`merge_files` raise. -/
structure MergeLib where
  writerRaises : Bool
  readerRaises : Bool
  addFileRaises : String → Bool
  applyRaises : Bool

/-- What a call to `merge_files` did: its return value, whether the cleanup of
the old output ran, and whether the merge itself (`reader.apply`) was
invoked. -/
structure MergeCall where
  result : Option String
  cleanCalled : Bool
  applyCalled : Bool
  deriving DecidableEq, Repr

/-- `OSMDownloaderMerger.merge_files`: clean the old output, construct the
writer and reader, add each input file, and apply; any exception from the
library is caught by the surrounding `try` and turned into a `None` return,
and on success the output path is returned. -/
def merge_files (lib : MergeLib) (unlink : String → UnlinkResult)
    (input_files : List String) (output_file : String) : MergeCall :=
  match clean_old_merge unlink output_file with
  | Except.error _ =>
    { result := none, cleanCalled := true, applyCalled := false }
  | Except.ok _ =>
    if lib.writerRaises then
      { result := none, cleanCalled := true, applyCalled := false }
    else if lib.readerRaises then
      { result := none, cleanCalled := true, applyCalled := false }
    else if input_files.any lib.addFileRaises then
      { result := none, cleanCalled := true, applyCalled := false }
    else if lib.applyRaises then
      { result := none, cleanCalled := true, applyCalled := true }
    else
      { result := some output_file, cleanCalled := true, applyCalled := true }

/-- Helper for `basename`: scan the characters, restarting the accumulated
component after each `'/'`. -/
def basenameAux (acc : List Char) : List Char → List Char
  | [] => acc
  | c :: cs => if c = '/' then basenameAux [] cs else basenameAux (acc ++ [c]) cs

/-- `os.path.basename`: the part of the path after the last `'/'`. -/
def basename (s : String) : String :=
  String.mk (basenameAux [] s.data)

/-- Oracle for the effects inside `upload_to_r2`: whether `boto3.client`,
`open(file_path, "rb")` or `upload_fileobj` raises. -/
structure UploadEnv where
  clientRaises : Bool
  openRaises : String → Bool
  putRaises : Bool

/-- What a call to `upload_to_r2` did: its boolean return value and, when the
upload executed, the bucket and object key the file was stored under. -/
structure UploadCall where
  returnValue : Bool
  storedObject : Option (String × String)
  deriving DecidableEq, Repr

/-- The `try` block of `upload_to_r2`: construct the client, open the local
file, upload it under `os.path.basename(file_path)` into the bucket, and
return `True`; each step may raise. -/
def upload_to_r2_body (env : UploadEnv) (file_path bucket_name : String) :
    Except PyExc UploadCall :=
  if env.clientRaises then Except.error PyExc.libError
  else if env.openRaises file_path then Except.error PyExc.osError
  else if env.putRaises then Except.error PyExc.libError
  else Except.ok { returnValue := true,
                   storedObject := some (bucket_name, basename file_path) }

/-- `OSMDownloaderMerger.upload_to_r2`: the `try` block with its
`except Exception` handler, which converts any exception into a `False`
return. -/
def upload_to_r2 (env : UploadEnv) (file_path bucket_name : String) :
    UploadCall :=
  match upload_to_r2_body env file_path bucket_name with
  | Except.ok r => r
  | Except.error _ => { returnValue := false, storedObject := none }

/-- Everything `main` reads from configuration and from the outside world:
the `OSM_SOURCE` value, the configured locations and directories, the `S3`
settings, the filesystem, and the oracles for HTTP, unlink and the external
libraries. -/
structure World where
  osmSource : Option String
  locations : List String
  downloadDir : String
  osmDir : String
  s3Enabled : Bool
  s3Bucket : String
  fs : FS
  now : Int
  httpFails : String → Bool
  unlink : String → UnlinkResult
  lib : MergeLib
  upEnv : UploadEnv

/-- Trace of one run of `main`: whether `sys.exit` ran, the process exit
status, the stage results, and whether an upload was attempted. -/
structure MainResult where
  exitedViaSysExit : Bool
  exitCode : Nat
  downloaded : Option (List String)
  mergeResult : Option (Option String)
  uploadAttempted : Bool
  uploadReturn : Option Bool
  deriving DecidableEq, Repr

/-- `main`: exit via `sys.exit()` when `OSM_SOURCE` is unset; otherwise
download, return early when nothing was downloaded, merge, return early when
the merge result is absent, and upload only when `S3_ENABLED`.  Normal
returns end the process with status 0; an uncaught exception from
`download_files` ends it with status 1 (Python's uncaught-exception status). -/
def osm_main (w : World) : MainResult :=
  match w.osmSource with
  | none =>
    { exitedViaSysExit := true, exitCode := sysExitNoArg, downloaded := none,
      mergeResult := none, uploadAttempted := false, uploadReturn := none }
  | some src =>
    match download_files w.httpFails w.now src w.downloadDir w.fs
        w.locations with
    | Except.error _ =>
      { exitedViaSysExit := false, exitCode := 1, downloaded := none,
        mergeResult := none, uploadAttempted := false, uploadReturn := none }
    | Except.ok files =>
      if files.isEmpty then
        { exitedViaSysExit := false, exitCode := 0, downloaded := some files,
          mergeResult := none, uploadAttempted := false, uploadReturn := none }
      else
        let m := merge_files w.lib w.unlink files
          (w.osmDir ++ "/" ++ "all" ++ ".osm.pbf")
        match m.result with
        | none =>
          { exitedViaSysExit := false, exitCode := 0,
            downloaded := some files, mergeResult := some none,
            uploadAttempted := false, uploadReturn := none }
        | some merged =>
          if w.s3Enabled then
            let up := upload_to_r2 w.upEnv merged w.s3Bucket
            { exitedViaSysExit := false, exitCode := 0,
              downloaded := some files, mergeResult := some (some merged),
              uploadAttempted := true, uploadReturn := some up.returnValue }
          else
            { exitedViaSysExit := false, exitCode := 0,
              downloaded := some files, mergeResult := some (some merged),
              uploadAttempted := false, uploadReturn := none }

/-- A filesystem with no files at all. -/
def fsEmpty : FS := { ex := fun _ => false, mtime := fun _ => 0 }

/-- Scenario filesystem: only the stale togo extract exists, with mtime 0. -/
def fsScenario : FS :=
  { ex := fun p => p == "d/togo-latest.osm.pbf", mtime := fun _ => 0 }

/-- Scenario network: exactly the togo download fails (e.g. a 404). -/
def httpScenario : String → Bool :=
  fun url => url == "u/africa/togo-latest.osm.pbf"

/-- Keys of an environment, in order. -/
def envKeys (e : List (String × String)) : List String :=
  e.map Prod.fst

/-- Deletion oracle on which every unlink is denied by permissions. -/
def unlinkDenied : String → UnlinkResult :=
  fun _ => UnlinkResult.permissionDenied

/-- A merge library on which no call raises. -/
def libOk : MergeLib :=
  { writerRaises := false, readerRaises := false,
    addFileRaises := fun _ => false, applyRaises := false }

/-- An uploader environment on which no call raises. -/
def upEnvOk : UploadEnv :=
  { clientRaises := false, openRaises := fun _ => false, putRaises := false }

/-- An uploader environment on which client construction raises. -/
def upEnvClientFail : UploadEnv :=
  { clientRaises := true, openRaises := fun _ => false, putRaises := false }

/-- A world with no `OSM_SOURCE` configured. -/
def worldNoSource : World :=
  { osmSource := none, locations := [], downloadDir := "d", osmDir := "o",
    s3Enabled := false, s3Bucket := "b", fs := fsEmpty, now := 0,
    httpFails := fun _ => false, unlink := fun _ => UnlinkResult.ok,
    lib := libOk, upEnv := upEnvOk }

/-- A world whose single download succeeds but whose merge raises, with
uploads enabled and deletion denied. -/
def worldMergeFail : World :=
  { worldNoSource with
    osmSource := some "u", locations := ["africa/togo"],
    lib := { libOk with applyRaises := true },
    unlink := unlinkDenied, s3Enabled := true }

theorem splitChar_ne_nil (sep : Char) (cs : List Char) :
    splitChar sep cs ≠ [] := by
  induction cs with
  | nil => simp [splitChar]
  | cons c cs ih =>
    cases h : splitChar sep cs with
    | nil => exact absurd h ih
    | cons hd tl =>
      simp only [splitChar, h]
      split <;> simp

theorem splitChar_length (sep : Char) (cs : List Char) :
    (splitChar sep cs).length = cs.count sep + 1 := by
  induction cs with
  | nil => simp [splitChar]
  | cons c cs ih =>
    cases h : splitChar sep cs with
    | nil => exact absurd h (splitChar_ne_nil sep cs)
    | cons hd tl =>
      rw [h] at ih
      by_cases hc : c = sep
      · simp only [splitChar, h, if_pos hc, List.length_cons, List.count_cons,
          hc]
        simp_all
      · simp only [splitChar, h, if_neg hc, List.length_cons, List.count_cons]
        have : (c == sep) = false := by simp [hc]
        simp_all

theorem pySplitSlash_length (s : String) :
    (pySplitSlash s).length = countChar '/' s + 1 := by
  simp [pySplitSlash, countChar, splitChar_length]

/-- C2: a location with exactly one separator splits so that the country
index (position 1) is in bounds, hence parsing never raises anywhere in
`download_files` under that invariant; a location with no separator makes
the same index access go out of bounds. -/
theorem c2_location_split_safety :
    (∀ loc : String, countChar '/' loc = 1 →
      (locationCountry loc).isSome = true) ∧
    (∀ loc : String, countChar '/' loc = 0 → locationCountry loc = none) ∧
    (∀ (hf : String → Bool) (now : Int) (burl dir : String) (fs : FS)
      (locs : List String), (∀ l ∈ locs, countChar '/' l = 1) →
      ∃ files,
        download_files hf now burl dir fs locs = Except.ok files) := by
  have hsome : ∀ loc : String, countChar '/' loc = 1 →
      (locationCountry loc).isSome = true := by
    intro loc h
    have hlen : (pySplitSlash loc).length = 2 := by
      rw [pySplitSlash_length, h]
    obtain ⟨a, b, hab⟩ := List.length_eq_two.mp hlen
    simp [locationCountry, hab]
  refine ⟨hsome, ?_, ?_⟩
  · intro loc h
    have hlen : (pySplitSlash loc).length = 1 := by
      rw [pySplitSlash_length, h]
    obtain ⟨a, hab⟩ := List.length_eq_one.mp hlen
    simp [locationCountry, hab]
  · intro hf now burl dir fs locs
    induction locs generalizing fs with
    | nil => intro _; exact ⟨[], rfl⟩
    | cons loc rest ih =>
      intro hall
      have hc := hsome loc (hall loc (by simp))
      obtain ⟨country, hcountry⟩ := Option.isSome_iff_exists.mp hc
      have hrest : ∀ l ∈ rest, countChar '/' l = 1 := by
        intro l hl; exact hall l (by simp [hl])
      simp only [download_files, hcountry]
      by_cases hnd : needs_download fs.ex fs.mtime now
          (dir ++ "/" ++ country ++ "-latest.osm.pbf") = true
      · rw [if_pos hnd]
        by_cases hfail : hf (burl ++ "/" ++ (loc ++ "-latest.osm.pbf")) = true
        · rw [if_pos hfail]
          exact ih _ hrest
        · rw [if_neg hfail]
          obtain ⟨files, hfiles⟩ := ih
            (writeFile fs (dir ++ "/" ++ country ++ "-latest.osm.pbf") now)
            hrest
          exact ⟨_, by rw [hfiles]; rfl⟩
      · rw [if_neg hnd]
        obtain ⟨files, hfiles⟩ := ih fs hrest
        exact ⟨_, by rw [hfiles]; rfl⟩

/-- C2 witness: concrete instances of each part of
`c2_location_split_safety`. -/
theorem c2_location_split_safety_witness :
    (locationCountry "africa/togo").isSome = true ∧
    locationCountry "africatogo" = none ∧
    ∃ files, download_files (fun _ => false) 0 "u" "d" fsEmpty
      ["africa/togo"] = Except.ok files :=
  ⟨c2_location_split_safety.1 "africa/togo" (by decide),
   c2_location_split_safety.2.1 "africatogo" (by decide),
   c2_location_split_safety.2.2 (fun _ => false) 0 "u" "d" fsEmpty
     ["africa/togo"] (by decide)⟩

/-- C5: `needs_download` is true for a missing path, and for an existing
path it is true exactly when the age `now - mtime` is at least 7 whole days
(7 * 86400 seconds). -/
theorem c5_needs_download_spec :
    ∀ (ex : String → Bool) (mt : String → Int) (now : Int) (p : String),
      (ex p = false → needs_download ex mt now p = true) ∧
      (ex p = true →
        (needs_download ex mt now p = true ↔ 7 * 86400 ≤ now - mt p)) := by
  intro ex mt now p
  constructor
  · intro h
    simp [needs_download, h]
  · intro h
    simp only [needs_download, h]
    rw [if_neg (by simp)]
    rw [decide_eq_true_eq]
    rw [Int.fdiv_eq_ediv _ (by norm_num)]
    rw [Int.le_ediv_iff_mul_le (by norm_num)]

/-- C5 witness: a missing path needs the download; a path whose mtime is
exactly 7 days in the past needs it as well. -/
theorem c5_needs_download_spec_witness :
    needs_download (fun _ => false) (fun _ => 0) 0 "p" = true ∧
    (needs_download (fun _ => true) (fun _ => 0) 604800 "p" = true ↔
      7 * 86400 ≤ (604800 : Int) - (fun _ => (0 : Int)) "p") :=
  ⟨(c5_needs_download_spec (fun _ => false) (fun _ => 0) 0 "p").1 rfl,
   (c5_needs_download_spec (fun _ => true) (fun _ => 0) 604800 "p").2 rfl⟩

/-- C1 counterexample: two configured locations; the togo file exists but is
stale (mtime 0, now 7 days), its download fails, benin's download succeeds.
The returned list has length 1, not 2, and the path of the failed location is
missing even though its local file existed before the attempt. -/
theorem c1_counterexample :
    fsScenario.ex "d/togo-latest.osm.pbf" = true ∧
    download_files httpScenario 604800 "u" "d" fsScenario
      ["africa/togo", "africa/benin"] =
      Except.ok ["d/benin-latest.osm.pbf"] ∧
    List.length ["d/benin-latest.osm.pbf"] = 1 ∧
    "d/togo-latest.osm.pbf" ∉ ["d/benin-latest.osm.pbf"] :=
  ⟨rfl, rfl, rfl, by decide⟩

/-- C1 amended: with two configured locations where the first needs a
download whose request fails (even though a stale local copy exists) and the
second either is fresh or downloads successfully, `download_files` returns
only the second location's path: the `continue` in the exception handler
skips the append, so the failed location is dropped from the result. -/
theorem c1_amended_download_list :
    ∀ (hf : String → Bool) (now : Int) (burl dir : String) (fs : FS)
      (locA locB cA cB fnA fnB : String),
      locationCountry locA = some cA →
      locationCountry locB = some cB →
      fnA = dir ++ "/" ++ cA ++ "-latest.osm.pbf" →
      fnB = dir ++ "/" ++ cB ++ "-latest.osm.pbf" →
      fs.ex fnA = true →
      needs_download fs.ex fs.mtime now fnA = true →
      hf (burl ++ "/" ++ (locA ++ "-latest.osm.pbf")) = true →
      hf (burl ++ "/" ++ (locB ++ "-latest.osm.pbf")) = false →
      fnA ≠ fnB →
      download_files hf now burl dir fs [locA, locB] = Except.ok [fnB] ∧
      List.length [fnB] = 1 ∧ fnA ∉ [fnB] := by
  intro hf now burl dir fs locA locB cA cB fnA fnB hA hB hfnA hfnB hex hnd
    hfail hok hne
  subst hfnA
  subst hfnB
  refine ⟨?_, rfl, by simp [hne]⟩
  simp only [download_files, hA, hB]
  rw [if_pos hnd, if_pos hfail]
  by_cases h2 : needs_download fs.ex fs.mtime now
      (dir ++ "/" ++ cB ++ "-latest.osm.pbf") = true
  · rw [if_pos h2, if_neg (by simp [hok])]
    rfl
  · rw [if_neg h2]
    rfl

/-- C1 amended witness: the concrete scenario of the counterexample, via the
amended theorem. -/
theorem c1_amended_download_list_witness :
    download_files httpScenario 604800 "u" "d" fsScenario
      ["africa/togo", "africa/benin"] =
      Except.ok ["d/benin-latest.osm.pbf"] ∧
    List.length ["d/benin-latest.osm.pbf"] = 1 ∧
    "d/togo-latest.osm.pbf" ∉ ["d/benin-latest.osm.pbf"] :=
  c1_amended_download_list httpScenario 604800 "u" "d" fsScenario
    "africa/togo" "africa/benin" "togo" "benin"
    "d/togo-latest.osm.pbf" "d/benin-latest.osm.pbf"
    (by decide) (by decide) (by decide) (by decide) (by decide) (by decide)
    (by decide) (by decide) (by decide)

theorem envLookup_append_some {k v : String} {e : List (String × String)}
    (l : List (String × String)) (h : envLookup k e = some v) :
    envLookup k (e ++ l) = some v := by
  induction e with
  | nil => simp [envLookup] at h
  | cons kv rest ih =>
    obtain ⟨k1, v1⟩ := kv
    simp only [envLookup, List.cons_append] at h ⊢
    by_cases hk : k1 = k
    · simpa [hk] using h
    · rw [if_neg hk] at h ⊢
      exact ih h

theorem envLookup_append_none {k : String} {e : List (String × String)}
    (l : List (String × String)) (h : envLookup k e = none) :
    envLookup k (e ++ l) = envLookup k l := by
  induction e with
  | nil => simp
  | cons kv rest ih =>
    obtain ⟨k1, v1⟩ := kv
    simp only [envLookup, List.cons_append] at h ⊢
    by_cases hk : k1 = k
    · simp [hk] at h
    · rw [if_neg hk] at h ⊢
      exact ih h

theorem envLookup_eq_none_iff {k : String} {e : List (String × String)} :
    envLookup k e = none ↔ k ∉ envKeys e := by
  induction e with
  | nil => simp [envLookup, envKeys]
  | cons kv rest ih =>
    obtain ⟨k1, v1⟩ := kv
    simp only [envLookup, envKeys, List.map_cons, List.mem_cons]
    by_cases hk : k1 = k
    · simp [hk]
    · rw [if_neg hk]
      simp only [envKeys] at ih
      rw [ih]
      constructor
      · intro h hmem
        rcases hmem with h1 | h2
        · exact hk h1.symm
        · exact h h2
      · intro h h2
        exact h (Or.inr h2)

theorem envLookup_envSetdefault_of_some {k k1 v1 v : String}
    {e : List (String × String)} (h : envLookup k e = some v) :
    envLookup k (envSetdefault e k1 v1) = some v := by
  unfold envSetdefault
  split
  · exact h
  · exact envLookup_append_some _ h

theorem envLookup_envSetdefault_other {k k1 v1 : String}
    (hne : k1 ≠ k) (e : List (String × String)) :
    envLookup k (envSetdefault e k1 v1) = envLookup k e := by
  unfold envSetdefault
  split
  · rfl
  · cases h : envLookup k e with
    | some v => exact envLookup_append_some _ h
    | none =>
      rw [envLookup_append_none _ h]
      simp [envLookup, hne]

theorem envLookup_envUpdate_self {k v : String}
    (e : List (String × String)) :
    envLookup k (envUpdate e k v) = some v := by
  induction e with
  | nil => simp [envUpdate, envLookup]
  | cons kv rest ih =>
    obtain ⟨k1, v1⟩ := kv
    by_cases hk : k1 = k
    · simp [envUpdate, hk, envLookup]
    · simp only [envUpdate, if_neg hk, envLookup]
      exact ih

theorem envLookup_envUpdate_other {k k1 v1 : String} (hne : k1 ≠ k)
    (e : List (String × String)) :
    envLookup k (envUpdate e k1 v1) = envLookup k e := by
  induction e with
  | nil => simp [envUpdate, envLookup, hne]
  | cons kv rest ih =>
    obtain ⟨ka, va⟩ := kv
    by_cases ha : ka = k1
    · simp only [envUpdate, if_pos ha, envLookup, if_neg hne, ha]
    · simp only [envUpdate, if_neg ha, envLookup]
      by_cases hak : ka = k
      · simp [hak]
      · rw [if_neg hak, if_neg hak]
        exact ih

theorem envLookup_foldl_setdefault_of_some {k v : String} :
    ∀ (vars e : List (String × String)), envLookup k e = some v →
      envLookup k
        (vars.foldl (fun e kv => envSetdefault e kv.1 kv.2) e) = some v := by
  intro vars
  induction vars with
  | nil => intro e h; exact h
  | cons kv rest ih =>
    intro e h
    exact ih _ (envLookup_envSetdefault_of_some h)

theorem envLookup_foldl_update_not_mem {k : String} :
    ∀ (vars e : List (String × String)), k ∉ envKeys vars →
      envLookup k (vars.foldl (fun e kv => envUpdate e kv.1 kv.2) e) =
        envLookup k e := by
  intro vars
  induction vars with
  | nil => intro e _; rfl
  | cons kv rest ih =>
    obtain ⟨k1, v1⟩ := kv
    intro e hmem
    have hk1 : k1 ≠ k := by
      intro hcontra
      exact hmem (by simp [envKeys, hcontra])
    have hrest : k ∉ envKeys rest := by
      intro hcontra
      exact hmem (by simp [envKeys] at hcontra ⊢; exact Or.inr hcontra)
    simp only [List.foldl_cons]
    rw [ih _ hrest, envLookup_envUpdate_other hk1]

theorem envLookup_foldl_update_of_mem {k v : String} :
    ∀ (vars e : List (String × String)), (envKeys vars).Nodup →
      envLookup k vars = some v →
      envLookup k (vars.foldl (fun e kv => envUpdate e kv.1 kv.2) e) =
        some v := by
  intro vars
  induction vars with
  | nil => intro e _ h; simp [envLookup] at h
  | cons kv rest ih =>
    obtain ⟨k1, v1⟩ := kv
    intro e hnd hl
    have hnd2 := hnd
    rw [envKeys, List.map_cons, List.nodup_cons] at hnd2
    by_cases hk : k1 = k
    · subst hk
      have hv : v1 = v := by simpa [envLookup] using hl
      subst hv
      have hnm : k1 ∉ envKeys rest := hnd2.1
      simp only [List.foldl_cons]
      rw [envLookup_foldl_update_not_mem rest _ hnm,
        envLookup_envUpdate_self]
    · have hl2 : envLookup k rest = some v := by
        simpa [envLookup, hk] using hl
      simp only [List.foldl_cons]
      exact ih _ hnd2.2 hl2

theorem envLookup_foldl_setdefault_of_mem {k v : String} :
    ∀ (vars e : List (String × String)), (envKeys vars).Nodup →
      envLookup k vars = some v → envLookup k e = none →
      envLookup k (vars.foldl (fun e kv => envSetdefault e kv.1 kv.2) e) =
        some v := by
  intro vars
  induction vars with
  | nil => intro e _ h _; simp [envLookup] at h
  | cons kv rest ih =>
    obtain ⟨k1, v1⟩ := kv
    intro e hnd hl he
    have hnd2 := hnd
    rw [envKeys, List.map_cons, List.nodup_cons] at hnd2
    by_cases hk : k1 = k
    · subst hk
      have hv : v1 = v := by simpa [envLookup] using hl
      subst hv
      have hset : envLookup k1 (envSetdefault e k1 v1) = some v1 := by
        unfold envSetdefault
        rw [if_neg (by simp [he])]
        rw [envLookup_append_none _ he]
        simp [envLookup]
      simp only [List.foldl_cons]
      exact envLookup_foldl_setdefault_of_some rest _ hset
    · have hl2 : envLookup k rest = some v := by
        simpa [envLookup, hk] using hl
      have hstill : envLookup k (envSetdefault e k1 v1) = none := by
        rw [envLookup_envSetdefault_other hk]
        exact he
      simp only [List.foldl_cons]
      exact ih _ hnd2.2 hl2 hstill

theorem envKeys_dictSetdefault_nodup {d : List (String × String)}
    {k v : String} (h : (envKeys d).Nodup) :
    (envKeys (dictSetdefault d k v)).Nodup := by
  unfold dictSetdefault
  split
  · exact h
  · have hk : k ∉ envKeys d := by
      rw [← envLookup_eq_none_iff]
      cases hl : envLookup k d with
      | none => rfl
      | some w => simp_all
    have hgoal : (List.map Prod.fst d ++ [k]).Nodup := by
      rw [List.nodup_append]
      refine ⟨by simpa [envKeys] using h, List.nodup_singleton k, ?_⟩
      intro a ha hmem
      rw [List.mem_singleton] at hmem
      subst hmem
      exact hk (by simpa [envKeys] using ha)
    simpa [envKeys] using hgoal

theorem envLookup_dictSetdefault_of_some {k v k1 v1 : String}
    {d : List (String × String)} (h : envLookup k d = some v) :
    envLookup k (dictSetdefault d k1 v1) = some v := by
  unfold dictSetdefault
  split
  · exact h
  · exact envLookup_append_some _ h

theorem envLookup_dotenvStep_of_some {k v : String}
    {d : List (String × String)} (line : String)
    (h : envLookup k d = some v) :
    envLookup k (dotenvStep d line) = some v := by
  unfold dotenvStep
  cases parseLine line with
  | none => exact h
  | some kv => exact envLookup_dictSetdefault_of_some h

theorem envKeys_dotenvStep_nodup {d : List (String × String)}
    (line : String) (h : (envKeys d).Nodup) :
    (envKeys (dotenvStep d line)).Nodup := by
  unfold dotenvStep
  cases parseLine line with
  | none => exact h
  | some kv => exact envKeys_dictSetdefault_nodup h

theorem envKeys_foldl_dotenvStep_nodup :
    ∀ (lines : List String) (d : List (String × String)),
      (envKeys d).Nodup → (envKeys (lines.foldl dotenvStep d)).Nodup := by
  intro lines
  induction lines with
  | nil => intro d h; exact h
  | cons line rest ih =>
    intro d h
    exact ih _ (envKeys_dotenvStep_nodup line h)

theorem parseDotenv_keys_nodup (lines : List String) :
    (envKeys (parseDotenv lines)).Nodup := by
  unfold parseDotenv
  exact envKeys_foldl_dotenvStep_nodup lines [] (by simp [envKeys])

theorem envLookup_foldl_dotenvStep_of_some {k v : String} :
    ∀ (lines : List String) (d : List (String × String)),
      envLookup k d = some v →
      envLookup k (lines.foldl dotenvStep d) = some v := by
  intro lines
  induction lines with
  | nil => intro d h; exact h
  | cons line rest ih =>
    intro d h
    exact ih _ (envLookup_dotenvStep_of_some line h)

theorem parseDotenv_append_of_some {k v : String} {lines : List String}
    (extra : List String) (h : envLookup k (parseDotenv lines) = some v) :
    envLookup k (parseDotenv (lines ++ extra)) = some v := by
  unfold parseDotenv at *
  rw [List.foldl_append]
  exact envLookup_foldl_dotenvStep_of_some extra _ h

/-- C3: when a config file is found, loading it in setdefault mode leaves a
variable already bound in the process environment unchanged, while loading it
in override mode rebinds that variable to the value the file defines for
it. -/
theorem c3_env_application_modes :
    ∀ (isFile : String → Bool) (readLines : String → List String)
      (inp : String) (env : List (String × String)) (k v w : String),
      isFile inp = true →
      envLookup k env = some v →
      envLookup k (parseDotenv (readLines inp)) = some w →
      (∃ e, load_env_file isFile readLines inp false env = LoadResult.ok e ∧
        envLookup k e = some v) ∧
      (∃ e, load_env_file isFile readLines inp true env = LoadResult.ok e ∧
        envLookup k e = some w) := by
  intro isFile readLines inp env k v w hfile henv hvars
  unfold load_env_file
  rw [if_pos hfile, if_pos hfile]
  constructor
  · refine ⟨_, rfl, ?_⟩
    unfold applyEnvFile
    rw [if_neg (by simp)]
    exact envLookup_foldl_setdefault_of_some _ _ henv
  · refine ⟨_, rfl, ?_⟩
    unfold applyEnvFile
    rw [if_pos rfl]
    exact envLookup_foldl_update_of_mem _ _
      (parseDotenv_keys_nodup (readLines inp)) hvars

/-- C3 witness: with the environment holding `A=9` and a file with lines
`A=1` and `B=2`, setdefault mode keeps `A=9` while override mode sets
`A=1`. -/
theorem c3_env_application_modes_witness :
    (∃ e, load_env_file (fun _ => true) (fun _ => ["A=1", "B=2"]) ".osm.env"
      false [("A", "9")] = LoadResult.ok e ∧ envLookup "A" e = some "9") ∧
    (∃ e, load_env_file (fun _ => true) (fun _ => ["A=1", "B=2"]) ".osm.env"
      true [("A", "9")] = LoadResult.ok e ∧ envLookup "A" e = some "1") :=
  c3_env_application_modes (fun _ => true) (fun _ => ["A=1", "B=2"])
    ".osm.env" [("A", "9")] "A" "9" "1" rfl (by decide) (by decide)

/-- C9: the `dotenv_vars` dict is built with `dict.setdefault`, so when the
same key occurs on several well-formed lines, the first occurrence's value
survives any later lines, and that value is what both application modes
install: override mode installs it over a pre-existing environment binding,
and setdefault mode installs it when the key was absent from the
environment. -/
theorem c9_first_occurrence_wins :
    ∀ (lines extra : List String) (k v : String)
      (env : List (String × String)),
      envLookup k (parseDotenv lines) = some v →
      envLookup k (parseDotenv (lines ++ extra)) = some v ∧
      envLookup k (applyEnvFile true (lines ++ extra) env) = some v ∧
      (envLookup k env = none →
        envLookup k (applyEnvFile false (lines ++ extra) env) = some v) := by
  intro lines extra k v env h
  have hall : envLookup k (parseDotenv (lines ++ extra)) = some v :=
    parseDotenv_append_of_some extra h
  refine ⟨hall, ?_, ?_⟩
  · unfold applyEnvFile
    rw [if_pos rfl]
    exact envLookup_foldl_update_of_mem _ _
      (parseDotenv_keys_nodup (lines ++ extra)) hall
  · intro he
    unfold applyEnvFile
    rw [if_neg (by simp)]
    exact envLookup_foldl_setdefault_of_mem _ _
      (parseDotenv_keys_nodup (lines ++ extra)) hall he

/-- C9 witness: the file lines `A=1` then `A=2` give `A=1` in the parsed
dict, in override mode over a pre-existing binding, and in setdefault mode
over an empty environment. -/
theorem c9_first_occurrence_wins_witness :
    envLookup "A" (parseDotenv (["A=1"] ++ ["A=2"])) = some "1" ∧
    envLookup "A" (applyEnvFile true (["A=1"] ++ ["A=2"]) [("A", "9")]) =
      some "1" ∧
    (envLookup "A" ([] : List (String × String)) = none →
      envLookup "A" (applyEnvFile false (["A=1"] ++ ["A=2"]) []) =
        some "1") :=
  ⟨(c9_first_occurrence_wins ["A=1"] ["A=2"] "A" "1" [("A", "9")]
      (by decide)).1,
   (c9_first_occurrence_wins ["A=1"] ["A=2"] "A" "1" [("A", "9")]
      (by decide)).2.1,
   fun _ => (c9_first_occurrence_wins ["A=1"] ["A=2"] "A" "1" []
      (by decide)).2.2 rfl⟩

theorem clean_old_merge_ok (unlink : String → UnlinkResult) (f : String) :
    clean_old_merge unlink f = Except.ok () := by
  unfold clean_old_merge
  cases unlink f <;> rfl

/-- C4: `merge_files` returns the output path exactly when no merge-library
call raises, otherwise an absent result with no exception propagated; and a
run of the orchestrator whose merge result is absent never attempts an
upload. -/
theorem c4_merge_absent_short_circuits :
    ∀ (lib : MergeLib) (unlink : String → UnlinkResult)
      (inputs : List String) (out : String) (w : World),
      ((merge_files lib unlink inputs out).result = some out ↔
        (lib.writerRaises = false ∧ lib.readerRaises = false ∧
          inputs.any lib.addFileRaises = false ∧ lib.applyRaises = false)) ∧
      ((merge_files lib unlink inputs out).result = some out ∨
        (merge_files lib unlink inputs out).result = none) ∧
      ((osm_main w).mergeResult = some none →
        (osm_main w).uploadAttempted = false) := by
  intro lib unlink inputs out w
  have hc := clean_old_merge_ok unlink out
  refine ⟨?_, ?_, ?_⟩
  · unfold merge_files
    rw [hc]
    cases hw : lib.writerRaises <;> cases hr : lib.readerRaises <;>
      cases ha : inputs.any lib.addFileRaises <;>
      cases hp : lib.applyRaises <;> simp_all
  · unfold merge_files
    rw [hc]
    cases hw : lib.writerRaises <;> cases hr : lib.readerRaises <;>
      cases ha : inputs.any lib.addFileRaises <;>
      cases hp : lib.applyRaises <;> simp_all
  · intro h
    unfold osm_main at h ⊢
    cases hs : w.osmSource with
    | none => rw [hs] at h
    | some src =>
      rw [hs] at h
      simp only [] at h ⊢
      cases hd : download_files w.httpFails w.now src w.downloadDir w.fs
          w.locations with
      | error e => rw [hd] at h
      | ok files =>
        rw [hd] at h
        simp only [] at h ⊢
        by_cases hempty : files.isEmpty
        · rw [if_pos hempty] at h
          simp at h
        · rw [if_neg hempty] at h ⊢
          cases hm : (merge_files w.lib w.unlink files
              (w.osmDir ++ "/" ++ "all" ++ ".osm.pbf")).result with
          | none => rw [hm] at h
          | some merged =>
            rw [hm] at h
            simp only [] at h
            by_cases hs3 : w.s3Enabled
            · rw [if_pos hs3] at h
              simp at h
            · rw [if_neg hs3] at h
              simp at h

/-- C4 witness: in the world whose merge raises, the orchestrator records an
absent merge result and attempts no upload. -/
theorem c4_merge_absent_short_circuits_witness :
    (osm_main worldMergeFail).uploadAttempted = false :=
  (c4_merge_absent_short_circuits worldMergeFail.lib worldMergeFail.unlink
    [] "" worldMergeFail).2.2 (by decide)

/-- C6: `clean_old_merge` returns normally on every deletion outcome, the
cleanup always runs before the merge, and a deletion failure does not keep
the merge call (`reader.apply`) from running whenever the library itself does
not raise earlier. -/
theorem c6_clean_nonfatal :
    ∀ (unlink : String → UnlinkResult) (f : String) (lib : MergeLib)
      (inputs : List String) (out : String),
      clean_old_merge unlink f = Except.ok () ∧
      (merge_files lib unlink inputs out).cleanCalled = true ∧
      (lib.writerRaises = false → lib.readerRaises = false →
        inputs.any lib.addFileRaises = false →
        (merge_files lib unlink inputs out).applyCalled = true) := by
  intro unlink f lib inputs out
  have hc := clean_old_merge_ok unlink out
  refine ⟨clean_old_merge_ok unlink f, ?_, ?_⟩
  · unfold merge_files
    rw [hc]
    cases hw : lib.writerRaises <;> cases hr : lib.readerRaises <;>
      cases ha : inputs.any lib.addFileRaises <;>
      cases hp : lib.applyRaises <;> simp_all
  · intro hw hr ha
    unfold merge_files
    rw [hc]
    simp only [hw, hr, ha, if_false, Bool.false_eq_true]
    cases hp : lib.applyRaises <;> simp_all

/-- C6 witness: with every deletion denied by permissions and a benign merge
library, the cleanup runs, nothing is raised, and the merge still runs. -/
theorem c6_clean_nonfatal_witness :
    clean_old_merge unlinkDenied "o/all.osm.pbf" = Except.ok () ∧
    (merge_files libOk unlinkDenied ["f1"] "o/all.osm.pbf").cleanCalled =
      true ∧
    (merge_files libOk unlinkDenied ["f1"] "o/all.osm.pbf").applyCalled =
      true :=
  ⟨(c6_clean_nonfatal unlinkDenied "o/all.osm.pbf" libOk ["f1"]
      "o/all.osm.pbf").1,
   (c6_clean_nonfatal unlinkDenied "o/all.osm.pbf" libOk ["f1"]
      "o/all.osm.pbf").2.1,
   (c6_clean_nonfatal unlinkDenied "o/all.osm.pbf" libOk ["f1"]
      "o/all.osm.pbf").2.2 rfl rfl rfl⟩

/-- C7: `upload_to_r2` catches every exception of its body — whether from
client construction, opening the file, or the upload — and converts it to a
`False` return; its result is always one of the two booleans. -/
theorem c7_upload_never_raises :
    ∀ (env : UploadEnv) (fp bucket : String) (e : PyExc),
      (upload_to_r2_body env fp bucket = Except.error e →
        upload_to_r2 env fp bucket =
          { returnValue := false, storedObject := none }) ∧
      ((env.clientRaises = true ∨ env.openRaises fp = true ∨
          env.putRaises = true) →
        (upload_to_r2 env fp bucket).returnValue = false) ∧
      ((upload_to_r2 env fp bucket).returnValue = true ∨
        (upload_to_r2 env fp bucket).returnValue = false) := by
  intro env fp bucket e
  refine ⟨?_, ?_, ?_⟩
  · intro h
    unfold upload_to_r2
    rw [h]
  · intro h
    cases hc : env.clientRaises <;> cases ho : env.openRaises fp <;>
      cases hp : env.putRaises <;>
      simp_all [upload_to_r2, upload_to_r2_body]
  · cases (upload_to_r2 env fp bucket).returnValue
    · exact Or.inr rfl
    · exact Or.inl rfl

/-- C7 witness: a failing client construction yields a `False` return with
nothing stored. -/
theorem c7_upload_never_raises_witness :
    upload_to_r2 upEnvClientFail "f" "b" =
      { returnValue := false, storedObject := none } :=
  (c7_upload_never_raises upEnvClientFail "f" "b" PyExc.libError).1 rfl

theorem basenameAux_append (ys : List Char) :
    ∀ (xs acc : List Char),
      basenameAux acc (xs ++ '/' :: ys) = basenameAux [] ys := by
  intro xs
  induction xs with
  | nil => intro acc; simp [basenameAux]
  | cons x xs ih =>
    intro acc
    by_cases hx : x = '/'
    · simp only [List.cons_append, basenameAux, if_pos hx]
      exact ih []
    · simp only [List.cons_append, basenameAux, if_neg hx]
      exact ih _

/-- C8: when no step raises, the uploaded object is stored in the given
bucket under the base filename of the local path; and the base filename
ignores any directory prefix spliced in front of a path. -/
theorem c8_upload_key_is_basename :
    ∀ (env : UploadEnv) (fp bucket : String),
      (env.clientRaises = false → env.openRaises fp = false →
        env.putRaises = false →
        (upload_to_r2 env fp bucket).storedObject =
          some (bucket, basename fp)) ∧
      (∀ d s : String, basename (d ++ "/" ++ s) = basename s) := by
  intro env fp bucket
  constructor
  · intro h1 h2 h3
    simp [upload_to_r2, upload_to_r2_body, h1, h2, h3]
  · intro d s
    unfold basename
    have hdata : (d ++ "/" ++ s).data = d.data ++ '/' :: s.data := by
      simp
    rw [hdata]
    exact congrArg String.mk (basenameAux_append s.data d.data [])

/-- C8 witness: the concrete path `a/b/c.osm.pbf` is stored under key
`c.osm.pbf`, and prefixing a directory leaves the basename unchanged. -/
theorem c8_upload_key_is_basename_witness :
    (upload_to_r2 upEnvOk "a/b/c.osm.pbf" "bkt").storedObject =
      some ("bkt", basename "a/b/c.osm.pbf") ∧
    basename ("dir" ++ "/" ++ "file.osm.pbf") = basename "file.osm.pbf" :=
  ⟨(c8_upload_key_is_basename upEnvOk "a/b/c.osm.pbf" "bkt").1 rfl rfl rfl,
   (c8_upload_key_is_basename upEnvOk "a/b/c.osm.pbf" "bkt").2 "dir"
     "file.osm.pbf"⟩

/-- C10: the two fatal configuration errors — no readable config file, and
`OSM_SOURCE` unset — terminate through `sys.exit()` with status 0, the same
status a completed run ends with, so they are indistinguishable from success
by exit code. -/
theorem c10_fatal_exit_status_zero :
    (∀ (isFile : String → Bool) (readLines : String → List String)
      (inp : String) (ov : Bool) (env : List (String × String)),
      isFile inp = false → isFile ".env" = false →
      load_env_file isFile readLines inp ov env = LoadResult.exited 0) ∧
    (∀ w : World, w.osmSource = none →
      (osm_main w).exitedViaSysExit = true ∧ (osm_main w).exitCode = 0) ∧
    (∀ (w : World) (src : String) (files : List String),
      w.osmSource = some src →
      download_files w.httpFails w.now src w.downloadDir w.fs w.locations =
        Except.ok files →
      (osm_main w).exitCode = 0) := by
  refine ⟨?_, ?_, ?_⟩
  · intro isFile readLines inp ov env h1 h2
    unfold load_env_file
    rw [if_neg (by simp [h1]), if_neg (by simp [h2])]
    rfl
  · intro w h
    unfold osm_main
    rw [h]
    exact ⟨rfl, rfl⟩
  · intro w src files hs hd
    unfold osm_main
    rw [hs]
    simp only []
    rw [hd]
    simp only []
    by_cases hempty : files.isEmpty
    · rw [if_pos hempty]
    · rw [if_neg hempty]
      cases hm : (merge_files w.lib w.unlink files
          (w.osmDir ++ "/" ++ "all" ++ ".osm.pbf")).result with
      | none => rfl
      | some merged =>
        simp only []
        by_cases hs3 : w.s3Enabled
        · rw [if_pos hs3]
        · rw [if_neg hs3]

/-- C10 witness: a world with no config file, a world with `OSM_SOURCE`
unset, and a completed pipeline run all end with exit status 0. -/
theorem c10_fatal_exit_status_zero_witness :
    load_env_file (fun _ => false) (fun _ => []) ".osm.env" false [] =
      LoadResult.exited 0 ∧
    ((osm_main worldNoSource).exitedViaSysExit = true ∧
      (osm_main worldNoSource).exitCode = 0) ∧
    (osm_main worldMergeFail).exitCode = 0 :=
  ⟨c10_fatal_exit_status_zero.1 (fun _ => false) (fun _ => []) ".osm.env"
      false [] rfl rfl,
   c10_fatal_exit_status_zero.2.1 worldNoSource rfl,
   c10_fatal_exit_status_zero.2.2 worldMergeFail "u"
     ["d/togo-latest.osm.pbf"] rfl rfl⟩
